import Mathlib

/-!
Task manager: store, HTTP handlers and terminal flows.

A shallow embedding of `taskmanager/taskmanager.go`.

* The JSON file named by `tm.filename` is represented by the collection that
  `loadTasks` decodes from it (`Disk.file`, empty when the file is absent),
  together with two counters recording how often the file has been read and
  written.  Reads and writes always succeed, and `saveTasks` followed by
  `loadTasks` returns the saved collection.
* Terminal rendering, the spinner goroutine, `time.Sleep` and the HTTP transport
  are not represented.  What the user types (the results of `getUserInput`) and
  the value of `time.Now()` are parameters of the flows.
* The two front ends are interleaved sequentially (one operation at a time).
-/

namespace TaskManager

/-! ## Data model -/

/-- Go: `type TaskStatus string`. -/
abbrev TaskStatus := String

/-- Go: `NotCompleted TaskStatus = "Not Completed"`. -/
def NotCompleted : TaskStatus := "Not Completed"

/-- Go: `InProgress TaskStatus = "In Progress"`. -/
def InProgress : TaskStatus := "In Progress"

/-- Go: `Completed TaskStatus = "Completed"`. -/
def Completed : TaskStatus := "Completed"

/-- An abstract `time.Time`: an instant, as a number of nanoseconds. -/
structure Time where
  nanos : Int
deriving DecidableEq, Repr

/-- The zero value of `time.Time`. -/
def Time.zero : Time := ⟨0⟩

/-- Go: `type TaskData struct`. -/
structure TaskData where
  ID : Int
  Description : String
  Status : TaskStatus
  CreatedAt : Time
deriving DecidableEq, Repr

/-! ## Library behaviour used by the program -/

/-- The two error kinds of `strconv`. -/
inductive NumError where
  | ErrSyntax
  | ErrRange
deriving DecidableEq, Repr

/-- An ASCII decimal digit (`ch -= 48; ch <= 9` in `strconv`). -/
def isDigit (c : Char) : Bool := decide (48 ≤ c.toNat) && decide (c.toNat ≤ 57)

/-- The digit loop of the fast path of `strconv.Atoi`: `n = n*10 + int(ch)`,
failing on the first character that is not a digit. -/
def parseDigits : List Char → Nat → Option Nat
  | [], n => some n
  | c :: cs, n => if isDigit c then parseDigits cs (n * 10 + (c.toNat - 48)) else none

/-- Go: `maxUint64` of `strconv`. -/
def maxUint64 : Nat := 2 ^ 64 - 1

/-- The loop of `strconv.ParseUint(s, 10, 0)` on a 64-bit platform, started with
the value accumulated so far. A byte that is not a decimal digit ends the loop
with value `0` and `ErrSyntax`. Before a digit is added, `n >= cutoff` (with
`cutoff = maxUint64/10 + 1`) or a sum above `maxUint64` ends the loop with value
`maxUint64` and `ErrRange`, without looking at the bytes that follow. -/
def parseUintLoop : List Char → Nat → Nat × Option NumError
  | [], n => (n, none)
  | c :: cs, n =>
    if isDigit c then
      if n ≥ maxUint64 / 10 + 1 then (maxUint64, some NumError.ErrRange)
      else if n * 10 + (c.toNat - 48) > maxUint64 then (maxUint64, some NumError.ErrRange)
      else parseUintLoop cs (n * 10 + (c.toNat - 48))
    else (0, some NumError.ErrSyntax)

/-- Go: `strconv.ParseUint(s, 10, 0)` on a 64-bit platform. -/
def ParseUint (s : List Char) : Nat × Option NumError :=
  match s with
  | [] => (0, some NumError.ErrSyntax)
  | c :: cs => parseUintLoop (c :: cs) 0

/-- Go: `strconv.ParseInt(s, 10, 0)` on a 64-bit platform: the sign is picked off,
the rest goes through `ParseUint`; an error other than `ErrRange` is returned with
value `0`; otherwise the unsigned value is checked against `1 << 63`, and a value
out of range gives the nearest bound with `ErrRange`. -/
def ParseInt (s : List Char) : Int × Option NumError :=
  match s with
  | [] => (0, some NumError.ErrSyntax)
  | c :: cs =>
    let neg : Bool := decide (c = '-')
    let rest := if c = '+' ∨ c = '-' then cs else c :: cs
    let r := ParseUint rest
    if r.2 ≠ none ∧ r.2 ≠ some NumError.ErrRange then (0, r.2)
    else if neg = false ∧ r.1 ≥ 2 ^ 63 then ((2 ^ 63 : Int) - 1, some NumError.ErrRange)
    else if neg = true ∧ r.1 > 2 ^ 63 then (-(2 ^ 63 : Int), some NumError.ErrRange)
    else (if neg = true then -(r.1 : Int) else (r.1 : Int), none)

/-- Go's `strconv.Atoi` on a 64-bit platform, returning the value and the error.
A string of 1 to 18 bytes takes the fast path (optional sign, then the digit loop,
value `0` with `ErrSyntax` on failure); every other string goes through
`ParseInt`. The string is read character by character: a character outside ASCII
is encoded by bytes none of which is a digit, so it fails where its first byte
fails. -/
def Atoi (s : String) : Int × Option NumError :=
  if 0 < s.utf8ByteSize ∧ s.utf8ByteSize < 19 then
    match s.data with
    | [] => (0, some NumError.ErrSyntax)
    | c :: cs =>
      let rest := if c = '-' ∨ c = '+' then cs else c :: cs
      if rest.length < 1 then (0, some NumError.ErrSyntax)
      else
        match parseDigits rest 0 with
        | none => (0, some NumError.ErrSyntax)
        | some n => (if c = '-' then -(n : Int) else (n : Int), none)
  else ParseInt s.data

/-- The members of a JSON object that `encoding/json` stores into a `TaskData`;
an absent member is `none`. Each present member holds a value of the Go type of
its field. -/
structure TaskJSON where
  id : Option Int
  description : Option String
  status : Option String
  createdAt : Option Time
deriving DecidableEq, Repr

/-- A request body: either something `Decode` rejects (with its error text) or a
JSON object. -/
inductive Body where
  | malformed (err : String)
  | object (o : TaskJSON)
deriving DecidableEq, Repr

/-- Go: `var task TaskData; err := json.NewDecoder(r.Body).Decode(&task)`.
Decoding starts from the zero `TaskData` and overwrites the fields whose members
are present. -/
def decodeTask : Body → Except String TaskData
  | Body.malformed err => Except.error err
  | Body.object o =>
    Except.ok
      { ID := o.id.getD 0
        Description := o.description.getD ""
        Status := o.status.getD ""
        CreatedAt := o.createdAt.getD Time.zero }

/-- An HTTP request: method, parsed query string and body. -/
structure Request where
  Method : String
  Query : List (String × String)
  Body : Body
deriving DecidableEq, Repr

/-- Go: `r.URL.Query().Get(key)`: the first value of the key, or `""`. -/
def queryGet (q : List (String × String)) (key : String) : String :=
  match q.find? (fun kv => kv.1 = key) with
  | some kv => kv.2
  | none => ""

/-- What a handler writes to the `http.ResponseWriter`. -/
inductive ResponseBody where
  | empty
  | text (s : String)
  | task (t : TaskData)
  | tasks (ts : List TaskData)
deriving DecidableEq, Repr

/-- Status code and body of an HTTP response. -/
structure Response where
  Status : Nat
  Body : ResponseBody
deriving DecidableEq, Repr

/-- Go: `http.Error(w, msg, code)`; the message is written with `Fprintln`. -/
def httpError (msg : String) (code : Nat) : Response :=
  { Status := code, Body := ResponseBody.text (msg ++ "\n") }

/-! ## Task store -/

/-- The file named by `tm.filename`, as the collection `loadTasks` decodes from
it, with the number of reads and writes performed so far. -/
structure Disk where
  file : List TaskData
  reads : Nat
  writes : Nat
deriving DecidableEq, Repr

/-- The store before anything was saved: no file. -/
def Disk.empty : Disk := { file := [], reads := 0, writes := 0 }

/-- Go: `loadTasks`. -/
def loadTasks (d : Disk) : List TaskData × Disk :=
  (d.file, { d with reads := d.reads + 1 })

/-- Go: `saveTasks`. -/
def saveTasks (tasks : List TaskData) (d : Disk) : Disk :=
  { d with file := tasks, writes := d.writes + 1 }

/-- Go: `for i, task := range tasks { if task.ID == id { ...; return } }`: the
index `i` of the iteration whose body runs, if any; the second argument is the
index of the head of the list. -/
def rangeFindID (id : Int) : List TaskData → Nat → Option Nat
  | [], _ => none
  | task :: rest, i => if task.ID = id then some i else rangeFindID id rest (i + 1)

/-! ## HTTP front end -/

/-- Go: `handleTasks`. -/
def handleTasks (d : Disk) : Response × Disk :=
  let (tasks, d1) := loadTasks d
  ({ Status := 200, Body := ResponseBody.tasks tasks }, d1)

/-- Go: `handleAddTask`; `now` is the value of `time.Now()`. -/
def handleAddTask (now : Time) (r : Request) (d : Disk) : Response × Disk :=
  if r.Method ≠ "POST" then (httpError "Method not allowed" 405, d)
  else
    match decodeTask r.Body with
    | Except.error err => (httpError err 400, d)
    | Except.ok task0 =>
      let (tasks, d1) := loadTasks d
      let task := { task0 with ID := (tasks.length : Int) + 1, CreatedAt := now }
      let tasks1 := tasks ++ [task]
      let d2 := saveTasks tasks1 d1
      ({ Status := 201, Body := ResponseBody.task task }, d2)

/-- Go: `handleUpdateTask`. -/
def handleUpdateTask (r : Request) (d : Disk) : Response × Disk :=
  if r.Method ≠ "POST" then (httpError "Method not allowed" 405, d)
  else
    match decodeTask r.Body with
    | Except.error err => (httpError err 400, d)
    | Except.ok updatedTask =>
      let (tasks, d1) := loadTasks d
      match rangeFindID updatedTask.ID tasks 0 with
      | some i =>
        let tasks1 := tasks.set i updatedTask
        let d2 := saveTasks tasks1 d1
        ({ Status := 200, Body := ResponseBody.task updatedTask }, d2)
      | none => (httpError "Task not found" 404, d1)

/-- Go: `handleDeleteTask`. -/
def handleDeleteTask (r : Request) (d : Disk) : Response × Disk :=
  if r.Method ≠ "POST" then (httpError "Method not allowed" 405, d)
  else
    let idStr := queryGet r.Query "id"
    match Atoi idStr with
    | (_, some _) => (httpError "Invalid task ID" 400, d)
    | (id, none) =>
      let (tasks, d1) := loadTasks d
      match rangeFindID id tasks 0 with
      | some i =>
        let tasks1 := tasks.take i ++ tasks.drop (i + 1)
        let d2 := saveTasks tasks1 d1
        ({ Status := 204, Body := ResponseBody.empty }, d2)
      | none => (httpError "Task not found" 404, d1)

/-! ## Terminal front end -/

/-- Go: `showTasks`; the result is the list that is rendered. -/
def showTasks (tasks : List TaskData) : List TaskData := tasks

/-- Go: `showAllTasks`. -/
def showAllTasks (d : Disk) : List TaskData × Disk :=
  let (tasks, d1) := loadTasks d
  (showTasks tasks, d1)

/-- Go: `showTasksByStatus`; the loop appends the matching tasks to
`filteredTasks`, which starts empty. -/
def showTasksByStatus (status : TaskStatus) (d : Disk) : List TaskData × Disk :=
  let (tasks, d1) := loadTasks d
  let filteredTasks :=
    tasks.foldl (fun acc task => if task.Status = status then acc ++ [task] else acc) []
  (showTasks filteredTasks, d1)

/-- Go: `addTask`; `description` is what the user typed, the result is the
message drawn at the end. -/
def addTask (description : String) (now : Time) (d : Disk) : String × Disk :=
  let (tasks, d1) := loadTasks d
  let newTask : TaskData :=
    { ID := (tasks.length : Int) + 1
      Description := description
      Status := NotCompleted
      CreatedAt := now }
  let tasks1 := tasks ++ [newTask]
  let d2 := saveTasks tasks1 d1
  ("Task added successfully.", d2)

/-- Go: `tasks[i].Status = status`. -/
def setStatusAt (tasks : List TaskData) (i : Nat) (status : TaskStatus) : List TaskData :=
  match tasks[i]? with
  | some t => tasks.set i { t with Status := status }
  | none => tasks

/-- Go: `updateTask`; `idStr` and `statusChoice` are what the user types at the
two prompts (the second prompt appears only when the id is found). -/
def updateTask (idStr statusChoice : String) (d : Disk) : String × Disk :=
  let (tasks, d1) := loadTasks d
  let (_, d2) := showAllTasks d1
  let id := (Atoi idStr).1
  match rangeFindID id tasks 0 with
  | some i =>
    if statusChoice = "1" then
      ("Task updated successfully.", saveTasks (setStatusAt tasks i NotCompleted) d2)
    else if statusChoice = "2" then
      ("Task updated successfully.", saveTasks (setStatusAt tasks i InProgress) d2)
    else if statusChoice = "3" then
      ("Task updated successfully.", saveTasks (setStatusAt tasks i Completed) d2)
    else ("Invalid choice. Status not updated.", d2)
  | none => ("Task not found.", d2)

/-- Go: `deleteTask`; `idStr` is what the user typed. -/
def deleteTask (idStr : String) (d : Disk) : String × Disk :=
  let (tasks, d1) := loadTasks d
  let (_, d2) := showAllTasks d1
  let id := (Atoi idStr).1
  match rangeFindID id tasks 0 with
  | some i =>
    let tasks1 := tasks.take i ++ tasks.drop (i + 1)
    ("Task deleted successfully.", saveTasks tasks1 d2)
  | none => ("Task not found.", d2)

/-! ## Sequences of operations -/

/-- One mutating operation of either front end, with its inputs. -/
inductive Op where
  | httpAdd (now : Time) (r : Request)
  | httpUpdate (r : Request)
  | httpDelete (r : Request)
  | termAdd (description : String) (now : Time)
  | termUpdate (idStr statusChoice : String)
  | termDelete (idStr : String)
deriving DecidableEq, Repr

/-- The effect of one operation on the store. -/
def Op.run : Op → Disk → Disk
  | Op.httpAdd now r, d => (handleAddTask now r d).2
  | Op.httpUpdate r, d => (handleUpdateTask r d).2
  | Op.httpDelete r, d => (handleDeleteTask r d).2
  | Op.termAdd description now, d => (addTask description now d).2
  | Op.termUpdate idStr statusChoice, d => (updateTask idStr statusChoice d).2
  | Op.termDelete idStr, d => (deleteTask idStr d).2

/-- Running operations one after the other. -/
def runOps (ops : List Op) (d : Disk) : Disk :=
  ops.foldl (fun acc op => op.run acc) d

/-- An add that goes through: `POST /add` with a body that decodes, or the
terminal add flow. -/
def Op.isAdd : Op → Bool
  | Op.httpAdd _ r =>
    decide (r.Method = "POST") &&
      (match decodeTask r.Body with
       | Except.ok _ => true
       | Except.error _ => false)
  | Op.termAdd _ _ => true
  | _ => false

/-- An add request of either front end, whether or not it goes through. -/
def Op.isAddRequest : Op → Bool
  | Op.httpAdd _ _ => true
  | Op.termAdd _ _ => true
  | _ => false

/-- A delete request of either front end. -/
def Op.isDeleteRequest : Op → Bool
  | Op.httpDelete _ => true
  | Op.termDelete _ => true
  | _ => false

/-- A sample collection: task 1 followed by two tasks that share id 2. -/
def sampleTasks : List TaskData :=
  [⟨1, "a", InProgress, ⟨7⟩⟩, ⟨2, "b", NotCompleted, ⟨8⟩⟩, ⟨2, "c", Completed, ⟨9⟩⟩]

/-- A store holding `sampleTasks`. -/
def sampleDisk : Disk := { file := sampleTasks, reads := 0, writes := 0 }

/-- The request `POST /add` whose body is a JSON object with the single member
`description`. -/
def addRequest (description : String) : Request :=
  { Method := "POST", Query := [], Body := Body.object ⟨none, some description, none, none⟩ }

/-- The request `POST /delete?id=idStr`. -/
def deleteRequest (idStr : String) : Request :=
  { Method := "POST", Query := [("id", idStr)], Body := Body.malformed "EOF" }

/-- A collection whose second task has the largest `int` as id. -/
def bigIdDisk : Disk :=
  { file := [⟨1, "a", NotCompleted, ⟨7⟩⟩, ⟨9223372036854775807, "b", NotCompleted, ⟨8⟩⟩]
    reads := 0
    writes := 0 }

/-- Twenty digits 9 followed by a letter: not an integer, and its digits exceed 64
bits before the letter is reached. -/
def overflowInput : String := "99999999999999999999x"

/-- The sequence add, add, delete id 1, add, over HTTP. -/
def duplicateIdOps : List Op :=
  [Op.httpAdd ⟨1⟩ (addRequest "a"), Op.httpAdd ⟨2⟩ (addRequest "b"),
    Op.httpDelete (deleteRequest "1"), Op.httpAdd ⟨3⟩ (addRequest "c")]

/-- A mixed sequence of adds: terminal, HTTP, terminal. -/
def sampleAdds : List Op :=
  [Op.termAdd "a" ⟨1⟩, Op.httpAdd ⟨2⟩ (addRequest "b"), Op.termAdd "c" ⟨3⟩]

/-- A string that denotes an integer: an optional sign followed by one or more
ASCII decimal digits. -/
def isDecimalInteger (s : String) : Bool :=
  match s.data with
  | [] => false
  | c :: cs =>
    let ds := if c = '-' ∨ c = '+' then cs else c :: cs
    !ds.isEmpty && ds.all isDigit

/-! ## The search loop -/

theorem rangeFindID_some {id : Int} {l : List TaskData} {i j : Nat}
    (h : rangeFindID id l i = some j) :
    ∃ pre t post, l = pre ++ t :: post ∧ t.ID = id ∧ (∀ x ∈ pre, x.ID ≠ id) ∧
      j = i + pre.length := by
  induction l generalizing i with
  | nil => simp [rangeFindID] at h
  | cons a rest ih =>
    unfold rangeFindID at h
    by_cases ha : a.ID = id
    · rw [if_pos ha] at h
      refine ⟨[], a, rest, rfl, ha, ?_, ?_⟩
      · intro x hx; cases hx
      · simpa using (Option.some.inj h).symm
    · rw [if_neg ha] at h
      obtain ⟨pre, t, post, hl, ht, hpre, hj⟩ := ih h
      refine ⟨a :: pre, t, post, by rw [hl]; rfl, ht, ?_, ?_⟩
      · intro x hx
        rcases List.mem_cons.mp hx with rfl | hx
        · exact ha
        · exact hpre x hx
      · rw [hj, List.length_cons]; omega

theorem rangeFindID_none {id : Int} {l : List TaskData} {i : Nat} :
    rangeFindID id l i = none ↔ ∀ t ∈ l, t.ID ≠ id := by
  induction l generalizing i with
  | nil => simp [rangeFindID]
  | cons a rest ih =>
    unfold rangeFindID
    by_cases ha : a.ID = id
    · simp [ha]
    · simp [ha, ih]

theorem rangeFindID_split {id : Int} {pre post : List TaskData} {t : TaskData} (i : Nat)
    (ht : t.ID = id) (hpre : ∀ x ∈ pre, x.ID ≠ id) :
    rangeFindID id (pre ++ t :: post) i = some (i + pre.length) := by
  induction pre generalizing i with
  | nil => simp [rangeFindID, ht]
  | cons a rest ih =>
    have ha : a.ID ≠ id := hpre a (List.mem_cons_self _ _)
    have hrest : ∀ x ∈ rest, x.ID ≠ id := fun x hx => hpre x (List.mem_cons_of_mem _ hx)
    rw [List.cons_append, rangeFindID, if_neg ha, ih (i + 1) hrest, List.length_cons]
    exact congrArg some (by omega)

theorem rangeFindID_found {id : Int} {l : List TaskData}
    (h : ∃ t ∈ l, t.ID = id) :
    ∃ pre t post, l = pre ++ t :: post ∧ t.ID = id ∧ (∀ x ∈ pre, x.ID ≠ id) ∧
      rangeFindID id l 0 = some pre.length := by
  cases hr : rangeFindID id l 0 with
  | none =>
    obtain ⟨t, ht, hid⟩ := h
    exact absurd hid (rangeFindID_none.mp hr t ht)
  | some j =>
    obtain ⟨pre, t, post, hl, ht, hpre, hj⟩ := rangeFindID_some hr
    exact ⟨pre, t, post, hl, ht, hpre, by rw [hj]; simp⟩

theorem take_drop_split (pre post : List TaskData) (t : TaskData) :
    (pre ++ t :: post).take pre.length ++ (pre ++ t :: post).drop (pre.length + 1) =
      pre ++ post := by
  induction pre with
  | nil => simp
  | cons a rest ih => simp

theorem set_split (pre post : List TaskData) (t u : TaskData) :
    (pre ++ t :: post).set pre.length u = pre ++ u :: post := by
  induction pre with
  | nil => simp
  | cons a rest ih => simp

theorem setStatusAt_split (pre post : List TaskData) (t : TaskData) (s : TaskStatus) :
    setStatusAt (pre ++ t :: post) pre.length s = pre ++ { t with Status := s } :: post := by
  have h : (pre ++ t :: post)[pre.length]? = some t := by
    rw [List.getElem?_append_right (Nat.le_refl _)]; simp
  unfold setStatusAt
  rw [h]
  exact set_split pre post t _

/-! ## Parsing of ids -/

theorem parseDigits_none {ds : List Char} (n : Nat) (h : ds.all isDigit = false) :
    parseDigits ds n = none := by
  induction ds generalizing n with
  | nil => simp at h
  | cons c cs ih =>
    unfold parseDigits
    by_cases hc : isDigit c = true
    · rw [if_pos hc]
      apply ih
      simpa [hc] using h
    · rw [if_neg hc]

theorem parseUintLoop_not_all_digits {ds : List Char} (n : Nat)
    (h : ds.all isDigit = false) :
    parseUintLoop ds n = (0, some NumError.ErrSyntax) ∨
      parseUintLoop ds n = (maxUint64, some NumError.ErrRange) := by
  induction ds generalizing n with
  | nil => simp at h
  | cons c cs ih =>
    unfold parseUintLoop
    by_cases hc : isDigit c = true
    · rw [if_pos hc]
      by_cases h1 : n ≥ maxUint64 / 10 + 1
      · rw [if_pos h1]; exact Or.inr rfl
      · rw [if_neg h1]
        by_cases h2 : n * 10 + (c.toNat - 48) > maxUint64
        · rw [if_pos h2]; exact Or.inr rfl
        · rw [if_neg h2]
          apply ih
          simpa [hc] using h
    · rw [if_neg hc]; exact Or.inl rfl

/-- What `ParseInt` returns on a string that is not an optionally signed string of
digits. -/
theorem ParseInt_of_not_decimal (cs : List Char)
    (h : (match cs with
      | [] => false
      | c :: cs =>
        let ds := if c = '-' ∨ c = '+' then cs else c :: cs
        !ds.isEmpty && ds.all isDigit) = false) :
    ParseInt cs = (0, some NumError.ErrSyntax) ∨
      ParseInt cs = ((2 ^ 63 : Int) - 1, some NumError.ErrRange) ∨
      ParseInt cs = (-(2 ^ 63 : Int), some NumError.ErrRange) := by
  cases cs with
  | nil => exact Or.inl rfl
  | cons c cs =>
    simp only at h
    have hsign : (if c = '+' ∨ c = '-' then cs else c :: cs) =
        (if c = '-' ∨ c = '+' then cs else c :: cs) := by
      by_cases h1 : c = '-' <;> by_cases h2 : c = '+' <;> simp [h1, h2]
    unfold ParseInt
    simp only [hsign]
    cases hds : (if c = '-' ∨ c = '+' then cs else c :: cs) with
    | nil => exact Or.inl rfl
    | cons e rest =>
      rw [hds] at h
      have hall : (e :: rest).all isDigit = false := by simpa using h
      have hloop := parseUintLoop_not_all_digits 0 hall
      have hpu : ParseUint (e :: rest) = parseUintLoop (e :: rest) 0 := rfl
      rcases hloop with hl | hl
      · left
        simp [hpu, hl]
      · right
        by_cases hneg : c = '-'
        · right
          simp [hpu, hl, hneg, maxUint64]
        · left
          simp [hpu, hl, hneg, maxUint64]

/-- On a string that does not denote an integer `Atoi` fails, with value 0 for a
malformed string and with the largest or smallest `int` when the leading digits
already exceed 64 bits. -/
theorem Atoi_of_not_decimal {s : String} (h : isDecimalInteger s = false) :
    Atoi s = (0, some NumError.ErrSyntax) ∨
      Atoi s = ((2 ^ 63 : Int) - 1, some NumError.ErrRange) ∨
      Atoi s = (-(2 ^ 63 : Int), some NumError.ErrRange) := by
  unfold isDecimalInteger at h
  unfold Atoi
  by_cases hfast : 0 < s.utf8ByteSize ∧ s.utf8ByteSize < 19
  · rw [if_pos hfast]
    left
    cases hs : s.data with
    | nil => rfl
    | cons c cs =>
      rw [hs] at h
      simp only at h ⊢
      cases hds : (if c = '-' ∨ c = '+' then cs else c :: cs) with
      | nil => rfl
      | cons e rest =>
        rw [hds] at h
        have hall : (e :: rest).all isDigit = false := by simpa using h
        simp [parseDigits_none 0 hall]
  · rw [if_neg hfast]
    exact ParseInt_of_not_decimal s.data h

theorem Atoi_err_of_not_decimal {s : String} (h : isDecimalInteger s = false) :
    ∃ v e, Atoi s = (v, some e) := by
  rcases Atoi_of_not_decimal h with h1 | h1 | h1
  · exact ⟨_, _, h1⟩
  · exact ⟨_, _, h1⟩
  · exact ⟨_, _, h1⟩

/-! ## Equations for the operations -/

theorem foldl_append_filter (status : TaskStatus) (tasks acc : List TaskData) :
    tasks.foldl (fun acc task => if task.Status = status then acc ++ [task] else acc) acc =
      acc ++ tasks.filter (fun task => decide (task.Status = status)) := by
  induction tasks generalizing acc with
  | nil => simp
  | cons a rest ih =>
    rw [List.foldl_cons, ih]
    by_cases ha : a.Status = status
    · simp [ha]
    · simp [ha]

theorem handleAddTask_rejected_method (now : Time) (r : Request) (d : Disk)
    (hm : r.Method ≠ "POST") :
    handleAddTask now r d = (httpError "Method not allowed" 405, d) := by
  unfold handleAddTask
  rw [if_pos hm]

theorem handleAddTask_rejected_body (now : Time) (r : Request) (d : Disk) (err : String)
    (hm : r.Method = "POST") (hb : decodeTask r.Body = Except.error err) :
    handleAddTask now r d = (httpError err 400, d) := by
  unfold handleAddTask
  simp only [hm, ne_eq, not_true_eq_false, if_false, hb]

theorem handleAddTask_ok (now : Time) (r : Request) (d : Disk) (task0 : TaskData)
    (hm : r.Method = "POST") (hb : decodeTask r.Body = Except.ok task0) :
    handleAddTask now r d =
      ({ Status := 201,
         Body := ResponseBody.task
           { task0 with ID := (d.file.length : Int) + 1, CreatedAt := now } },
        { file := d.file ++ [{ task0 with ID := (d.file.length : Int) + 1, CreatedAt := now }],
          reads := d.reads + 1, writes := d.writes + 1 }) := by
  unfold handleAddTask
  simp only [hm, ne_eq, not_true_eq_false, if_false, hb, loadTasks, saveTasks]

theorem handleDeleteTask_rejected_id (r : Request) (d : Disk) (v : Int) (e : NumError)
    (hm : r.Method = "POST") (hq : Atoi (queryGet r.Query "id") = (v, some e)) :
    handleDeleteTask r d = (httpError "Invalid task ID" 400, d) := by
  unfold handleDeleteTask
  simp only [hm, ne_eq, not_true_eq_false, if_false, hq]

theorem handleDeleteTask_hit (r : Request) (d : Disk) (id : Int) (t : TaskData)
    (pre post : List TaskData)
    (hm : r.Method = "POST") (hq : Atoi (queryGet r.Query "id") = (id, none))
    (hl : d.file = pre ++ t :: post) (ht : t.ID = id) (hpre : ∀ x ∈ pre, x.ID ≠ id) :
    handleDeleteTask r d =
      ({ Status := 204, Body := ResponseBody.empty },
        { file := pre ++ post, reads := d.reads + 1, writes := d.writes + 1 }) := by
  have hfind : rangeFindID id d.file 0 = some pre.length := by
    rw [hl, rangeFindID_split 0 ht hpre, Nat.zero_add]
  unfold handleDeleteTask
  simp only [hm, ne_eq, not_true_eq_false, if_false, hq, loadTasks, hfind, saveTasks]
  rw [hl, take_drop_split]

theorem handleDeleteTask_miss (r : Request) (d : Disk) (id : Int)
    (hm : r.Method = "POST") (hq : Atoi (queryGet r.Query "id") = (id, none))
    (hno : ∀ t ∈ d.file, t.ID ≠ id) :
    handleDeleteTask r d =
      (httpError "Task not found" 404,
        { file := d.file, reads := d.reads + 1, writes := d.writes }) := by
  unfold handleDeleteTask
  simp only [hm, ne_eq, not_true_eq_false, if_false, hq, loadTasks, rangeFindID_none.mpr hno]

theorem deleteTask_hit (input : String) (d : Disk) (t : TaskData) (pre post : List TaskData)
    (hl : d.file = pre ++ t :: post) (ht : t.ID = (Atoi input).1)
    (hpre : ∀ x ∈ pre, x.ID ≠ (Atoi input).1) :
    deleteTask input d =
      ("Task deleted successfully.",
        { file := pre ++ post, reads := d.reads + 2, writes := d.writes + 1 }) := by
  have hfind : rangeFindID (Atoi input).1 d.file 0 = some pre.length := by
    rw [hl, rangeFindID_split 0 ht hpre, Nat.zero_add]
  unfold deleteTask
  simp only [loadTasks, showAllTasks, hfind, saveTasks]
  rw [hl, take_drop_split]

theorem deleteTask_miss (input : String) (d : Disk)
    (hno : ∀ t ∈ d.file, t.ID ≠ (Atoi input).1) :
    deleteTask input d =
      ("Task not found.", { file := d.file, reads := d.reads + 2, writes := d.writes }) := by
  unfold deleteTask
  simp only [loadTasks, showAllTasks, rangeFindID_none.mpr hno]

theorem runOps_nil (d : Disk) : runOps [] d = d := rfl

theorem runOps_cons (op : Op) (ops : List Op) (d : Disk) :
    runOps (op :: ops) d = runOps ops (op.run d) := rfl

theorem runOps_append (ops1 ops2 : List Op) (d : Disk) :
    runOps (ops1 ++ ops2) d = runOps ops2 (runOps ops1 d) := by
  unfold runOps
  rw [List.foldl_append]

/-- An add that goes through appends one task, numbered by the new length; over
HTTP that task is the body of the 201 response. -/
theorem run_add (op : Op) (d : Disk) (h : op.isAdd = true) :
    ∃ t : TaskData, t.ID = (d.file.length : Int) + 1 ∧ (op.run d).file = d.file ++ [t] ∧
      ∀ now r, op = Op.httpAdd now r →
        (handleAddTask now r d).1 = { Status := 201, Body := ResponseBody.task t } := by
  cases op with
  | httpAdd now r =>
    simp only [Op.isAdd, Bool.and_eq_true, decide_eq_true_eq] at h
    obtain ⟨hm, hdec⟩ := h
    cases hb : decodeTask r.Body with
    | error err => rw [hb] at hdec; cases hdec
    | ok task0 =>
      refine ⟨{ task0 with ID := (d.file.length : Int) + 1, CreatedAt := now }, rfl, ?_, ?_⟩
      · show (handleAddTask now r d).2.file = _
        rw [handleAddTask_ok now r d task0 hm hb]
      · intro now1 r1 heq
        cases heq
        rw [handleAddTask_ok now r d task0 hm hb]
  | termAdd description now =>
    exact ⟨_, rfl, rfl, fun _ _ heq => by cases heq⟩
  | httpUpdate r => cases h
  | httpDelete r => cases h
  | termUpdate a b => cases h
  | termDelete a => cases h

/-- A run of adds that go through appends one task per add. -/
theorem runOps_adds (ops : List Op) (d : Disk) (h : ∀ op ∈ ops, op.isAdd = true) :
    ∃ l : List TaskData, (runOps ops d).file = d.file ++ l ∧ l.length = ops.length := by
  induction ops generalizing d with
  | nil => exact ⟨[], by simp [runOps_nil], rfl⟩
  | cons op rest ih =>
    obtain ⟨t, -, ht, -⟩ := run_add op d (h op (List.mem_cons_self _ _))
    obtain ⟨l, hl, hlen⟩ := ih (op.run d) (fun o ho => h o (List.mem_cons_of_mem _ ho))
    refine ⟨t :: l, ?_, by simp [hlen]⟩
    rw [runOps_cons, hl, ht]
    simp

/-- An add request, successful or not, keeps the ids equal to the 1-based positions. -/
theorem run_addRequest_positions (op : Op) (d : Disk) (h : op.isAddRequest = true)
    (hpos : ∀ (k : Nat) (t : TaskData), d.file[k]? = some t → t.ID = (k : Int) + 1) :
    ∀ (k : Nat) (t : TaskData), (op.run d).file[k]? = some t → t.ID = (k : Int) + 1 := by
  have key : (op.run d).file = d.file ∨
      ∃ t : TaskData, t.ID = (d.file.length : Int) + 1 ∧ (op.run d).file = d.file ++ [t] := by
    cases op with
    | httpAdd now r =>
      simp only [Op.run]
      by_cases hm : r.Method = "POST"
      · cases hb : decodeTask r.Body with
        | error err => rw [handleAddTask_rejected_body now r d err hm hb]; exact Or.inl rfl
        | ok task0 =>
          rw [handleAddTask_ok now r d task0 hm hb]
          exact Or.inr ⟨_, rfl, rfl⟩
      · rw [handleAddTask_rejected_method now r d hm]; exact Or.inl rfl
    | termAdd description now => exact Or.inr ⟨_, rfl, rfl⟩
    | httpUpdate r => cases h
    | httpDelete r => cases h
    | termUpdate a b => cases h
    | termDelete a => cases h
  rcases key with he | ⟨t, ht, he⟩
  · rw [he]; exact hpos
  · rw [he]
    intro k x hx
    by_cases hk : k < d.file.length
    · rw [List.getElem?_append_left hk] at hx
      exact hpos k x hx
    · have hk2 : d.file.length ≤ k := Nat.le_of_not_lt hk
      rw [List.getElem?_append_right hk2] at hx
      cases hkk : k - d.file.length with
      | zero =>
        rw [hkk] at hx
        simp at hx
        have : k = d.file.length := by omega
        rw [← hx, ht, this]
      | succ m =>
        rw [hkk] at hx
        simp at hx

theorem runOps_addRequests_positions (ops : List Op) (d : Disk)
    (h : ∀ op ∈ ops, op.isAddRequest = true)
    (hpos : ∀ (k : Nat) (t : TaskData), d.file[k]? = some t → t.ID = (k : Int) + 1) :
    ∀ (k : Nat) (t : TaskData), (runOps ops d).file[k]? = some t → t.ID = (k : Int) + 1 := by
  induction ops generalizing d with
  | nil => exact hpos
  | cons op rest ih =>
    rw [runOps_cons]
    exact ih (op.run d) (fun o ho => h o (List.mem_cons_of_mem _ ho))
      (run_addRequest_positions op d (h op (List.mem_cons_self _ _)) hpos)

/-! ## HTTP handlers -/

/-- C7: a `POST /delete` whose `id` query value does not denote an integer is answered
with 400 "Invalid task ID", and the store is neither read nor written. -/
theorem handleDeleteTask_invalid_id (r : Request) (d : Disk)
    (hm : r.Method = "POST") (hid : isDecimalInteger (queryGet r.Query "id") = false) :
    handleDeleteTask r d = (httpError "Invalid task ID" 400, d) := by
  obtain ⟨v, e, hq⟩ := Atoi_err_of_not_decimal hid
  exact handleDeleteTask_rejected_id r d v e hm hq

/-- C7 at the requests `POST /delete?id=abc` and `POST /delete` (no id). -/
theorem handleDeleteTask_invalid_id_witness :
    (isDecimalInteger (queryGet [("id", "abc")] "id") = false ∧
      handleDeleteTask { Method := "POST", Query := [("id", "abc")], Body := Body.malformed "" }
          { file := [⟨1, "a", InProgress, ⟨7⟩⟩], reads := 0, writes := 0 } =
        ({ Status := 400, Body := ResponseBody.text "Invalid task ID\n" },
          { file := [⟨1, "a", InProgress, ⟨7⟩⟩], reads := 0, writes := 0 })) ∧
    (isDecimalInteger (queryGet [] "id") = false ∧
      handleDeleteTask { Method := "POST", Query := [], Body := Body.malformed "" }
          { file := [⟨1, "a", InProgress, ⟨7⟩⟩], reads := 0, writes := 0 } =
        ({ Status := 400, Body := ResponseBody.text "Invalid task ID\n" },
          { file := [⟨1, "a", InProgress, ⟨7⟩⟩], reads := 0, writes := 0 })) :=
  ⟨⟨by decide, handleDeleteTask_invalid_id _ _ rfl (by decide)⟩,
   ⟨by decide, handleDeleteTask_invalid_id _ _ rfl (by decide)⟩⟩

/-- C3: a `POST /update` whose body decodes to a task with an id that no stored task
has is answered with 404 "Task not found"; the store is read once and not written. -/
theorem handleUpdateTask_unknown_id (r : Request) (d : Disk) (T : TaskData)
    (hm : r.Method = "POST") (hb : decodeTask r.Body = Except.ok T)
    (hno : ∀ t ∈ d.file, t.ID ≠ T.ID) :
    handleUpdateTask r d =
      (httpError "Task not found" 404,
        { file := d.file, reads := d.reads + 1, writes := d.writes }) := by
  unfold handleUpdateTask
  simp only [hm, ne_eq, not_true_eq_false, if_false, hb, loadTasks,
    rangeFindID_none.mpr hno]

/-- C3 at a store holding task 1 and an update for id 5. -/
theorem handleUpdateTask_unknown_id_witness :
    handleUpdateTask
        { Method := "POST", Query := [],
          Body := Body.object ⟨some 5, some "x", some Completed, none⟩ }
        { file := [⟨1, "a", InProgress, ⟨7⟩⟩], reads := 0, writes := 0 } =
      ({ Status := 404, Body := ResponseBody.text "Task not found\n" },
        { file := [⟨1, "a", InProgress, ⟨7⟩⟩], reads := 1, writes := 0 }) :=
  handleUpdateTask_unknown_id _ _ ⟨5, "x", Completed, Time.zero⟩ rfl rfl (by decide)

/-- C6: a `POST /update` whose body decodes to `T`, where some stored task has the id
of `T`, saves the collection in which the first task with that id is replaced by `T`
and nothing else changes, and answers 200 with `T`. -/
theorem handleUpdateTask_replaces_first (r : Request) (d : Disk) (T : TaskData)
    (hm : r.Method = "POST") (hb : decodeTask r.Body = Except.ok T)
    (hex : ∃ t ∈ d.file, t.ID = T.ID) :
    ∃ pre t post, d.file = pre ++ t :: post ∧ t.ID = T.ID ∧ (∀ x ∈ pre, x.ID ≠ T.ID) ∧
      handleUpdateTask r d =
        ({ Status := 200, Body := ResponseBody.task T },
          { file := pre ++ T :: post, reads := d.reads + 1, writes := d.writes + 1 }) ∧
      (handleUpdateTask r d).2.file.length = d.file.length := by
  obtain ⟨pre, t, post, hl, ht, hpre, hfind⟩ := rangeFindID_found hex
  have hrun : handleUpdateTask r d =
      ({ Status := 200, Body := ResponseBody.task T },
        { file := pre ++ T :: post, reads := d.reads + 1, writes := d.writes + 1 }) := by
    unfold handleUpdateTask
    simp only [hm, ne_eq, not_true_eq_false, if_false, hb, loadTasks, hfind, saveTasks]
    rw [hl, set_split]
  refine ⟨pre, t, post, hl, ht, hpre, hrun, ?_⟩
  rw [hrun, hl]
  simp

/-- C6 at a store with two tasks of id 2: only the first is replaced. -/
theorem handleUpdateTask_replaces_first_witness :
    ∃ pre t post,
      [(⟨1, "a", InProgress, ⟨7⟩⟩ : TaskData), ⟨2, "b", NotCompleted, ⟨8⟩⟩,
          ⟨2, "c", NotCompleted, ⟨9⟩⟩] = pre ++ t :: post ∧
      t.ID = 2 ∧ (∀ x ∈ pre, x.ID ≠ 2) ∧
      handleUpdateTask
          { Method := "POST", Query := [],
            Body := Body.object ⟨some 2, some "z", some "anything", some ⟨1⟩⟩ }
          { file := [⟨1, "a", InProgress, ⟨7⟩⟩, ⟨2, "b", NotCompleted, ⟨8⟩⟩,
              ⟨2, "c", NotCompleted, ⟨9⟩⟩], reads := 0, writes := 0 } =
        ({ Status := 200, Body := ResponseBody.task ⟨2, "z", "anything", ⟨1⟩⟩ },
          { file := pre ++ ⟨2, "z", "anything", ⟨1⟩⟩ :: post, reads := 1, writes := 1 }) ∧
      (handleUpdateTask
          { Method := "POST", Query := [],
            Body := Body.object ⟨some 2, some "z", some "anything", some ⟨1⟩⟩ }
          { file := [⟨1, "a", InProgress, ⟨7⟩⟩, ⟨2, "b", NotCompleted, ⟨8⟩⟩,
              ⟨2, "c", NotCompleted, ⟨9⟩⟩], reads := 0, writes := 0 }).2.file.length = 3 :=
  handleUpdateTask_replaces_first
    { Method := "POST", Query := [],
      Body := Body.object ⟨some 2, some "z", some "anything", some ⟨1⟩⟩ }
    { file := [⟨1, "a", InProgress, ⟨7⟩⟩, ⟨2, "b", NotCompleted, ⟨8⟩⟩,
        ⟨2, "c", NotCompleted, ⟨9⟩⟩], reads := 0, writes := 0 }
    ⟨2, "z", "anything", ⟨1⟩⟩ rfl rfl ⟨⟨2, "b", NotCompleted, ⟨8⟩⟩, by decide, rfl⟩

/-- C5 (the code at the scenario): on a store with no tasks, `POST /add` with a body
giving only a description answers 201 with id 1, the description and the current
time, and the store then holds exactly that task; the status of the task is the
empty string, not "Not Completed". -/
theorem handleAddTask_description_only (now : Time) :
    handleAddTask now (addRequest "buy milk") Disk.empty =
        ({ Status := 201, Body := ResponseBody.task ⟨1, "buy milk", "", now⟩ },
          { file := [⟨1, "buy milk", "", now⟩], reads := 1, writes := 1 }) ∧
      (⟨1, "buy milk", "", now⟩ : TaskData).Status ≠ NotCompleted ∧
      addTask "buy milk" now Disk.empty =
        ("Task added successfully.",
          { file := [⟨1, "buy milk", "Not Completed", now⟩], reads := 1, writes := 1 }) := by
  refine ⟨rfl, ?_, rfl⟩
  show ("" : String) ≠ NotCompleted
  decide

/-! ## Deletion -/

/-- C2: deleting by id, through `POST /delete?id=...` or through the terminal flow.
If some stored task has the id, the saved collection is the stored one without the
first task of that id (one task fewer, the rest in order), and success is reported
(204, "Task deleted successfully."); if none has it, nothing is written, the
collection stays as it is, and not-found is reported (404 with the text
"Task not found", "Task not found." in the terminal). -/
theorem delete_first_match (r : Request) (input : String) (d : Disk) (id : Int)
    (hm : r.Method = "POST") (hq : Atoi (queryGet r.Query "id") = (id, none))
    (hin : (Atoi input).1 = id) :
    ((∃ t ∈ d.file, t.ID = id) →
      ∃ pre t post, d.file = pre ++ t :: post ∧ t.ID = id ∧ (∀ x ∈ pre, x.ID ≠ id) ∧
        (pre ++ post).length + 1 = d.file.length ∧
        handleDeleteTask r d =
          ({ Status := 204, Body := ResponseBody.empty },
            { file := pre ++ post, reads := d.reads + 1, writes := d.writes + 1 }) ∧
        deleteTask input d =
          ("Task deleted successfully.",
            { file := pre ++ post, reads := d.reads + 2, writes := d.writes + 1 })) ∧
    ((∀ t ∈ d.file, t.ID ≠ id) →
      handleDeleteTask r d =
          ({ Status := 404, Body := ResponseBody.text "Task not found\n" },
            { file := d.file, reads := d.reads + 1, writes := d.writes }) ∧
        deleteTask input d =
          ("Task not found.", { file := d.file, reads := d.reads + 2, writes := d.writes })) := by
  constructor
  · intro hex
    obtain ⟨pre, t, post, hl, ht, hpre, -⟩ := rangeFindID_found hex
    refine ⟨pre, t, post, hl, ht, hpre, ?_, ?_, ?_⟩
    · rw [hl]; simp; omega
    · exact handleDeleteTask_hit r d id t pre post hm hq hl ht hpre
    · exact deleteTask_hit input d t pre post hl (by rw [hin]; exact ht)
        (by rw [hin]; exact hpre)
  · intro hno
    exact ⟨handleDeleteTask_miss r d id hm hq hno,
      deleteTask_miss input d (by rw [hin]; exact hno)⟩

/-- C2 at three inputs. One task of id 1, deleting id 1 over HTTP and in the
terminal: 204, success message, and an empty file. The same store, deleting id 5:
404, not-found message, nothing written. A store holding ids 1 and 2^63 - 1 and the
terminal input `overflowInput`, which is read as 2^63 - 1: the second task is
deleted. -/
theorem delete_first_match_witness :
    (handleDeleteTask (deleteRequest "1")
          { file := [⟨1, "a", InProgress, ⟨7⟩⟩], reads := 0, writes := 0 } =
        ({ Status := 204, Body := ResponseBody.empty },
          { file := [], reads := 1, writes := 1 }) ∧
      deleteTask "1" { file := [⟨1, "a", InProgress, ⟨7⟩⟩], reads := 0, writes := 0 } =
        ("Task deleted successfully.", { file := [], reads := 2, writes := 1 })) ∧
    (handleDeleteTask (deleteRequest "5")
          { file := [⟨1, "a", InProgress, ⟨7⟩⟩], reads := 0, writes := 0 } =
        ({ Status := 404, Body := ResponseBody.text "Task not found\n" },
          { file := [⟨1, "a", InProgress, ⟨7⟩⟩], reads := 1, writes := 0 }) ∧
      deleteTask "5" { file := [⟨1, "a", InProgress, ⟨7⟩⟩], reads := 0, writes := 0 } =
        ("Task not found.",
          { file := [⟨1, "a", InProgress, ⟨7⟩⟩], reads := 2, writes := 0 })) ∧
    (handleDeleteTask (deleteRequest "9223372036854775807") bigIdDisk =
        ({ Status := 204, Body := ResponseBody.empty },
          { file := [⟨1, "a", NotCompleted, ⟨7⟩⟩], reads := 1, writes := 1 }) ∧
      deleteTask overflowInput bigIdDisk =
        ("Task deleted successfully.",
          { file := [⟨1, "a", NotCompleted, ⟨7⟩⟩], reads := 2, writes := 1 })) := by
  refine ⟨?_, ?_, ?_⟩
  · obtain ⟨pre, t, post, -, -, -, hlen, hhttp, hterm⟩ :=
      (delete_first_match (deleteRequest "1") "1"
        { file := [⟨1, "a", InProgress, ⟨7⟩⟩], reads := 0, writes := 0 } 1 rfl
        (by decide) (by decide)).1 ⟨⟨1, "a", InProgress, ⟨7⟩⟩, by decide, rfl⟩
    have hnil : pre ++ post = [] := List.length_eq_zero.mp (by simpa using hlen)
    rw [hnil] at hhttp hterm
    exact ⟨hhttp, hterm⟩
  · exact (delete_first_match (deleteRequest "5") "5"
      { file := [⟨1, "a", InProgress, ⟨7⟩⟩], reads := 0, writes := 0 } 5 rfl
      (by decide) (by decide)).2 (by decide)
  · obtain ⟨pre, t, post, hl, ht, -, -, hhttp, hterm⟩ :=
      (delete_first_match (deleteRequest "9223372036854775807") overflowInput
        bigIdDisk 9223372036854775807 rfl (by decide) (by decide)).1
        ⟨⟨9223372036854775807, "b", NotCompleted, ⟨8⟩⟩, by decide, rfl⟩
    have hfile : pre ++ post = [⟨1, "a", NotCompleted, ⟨7⟩⟩] := by
      match pre, hl with
      | [], hl =>
        have h1 := (List.cons.inj hl).1
        rw [← h1] at ht
        exact absurd ht (by decide)
      | [x], hl =>
        have h1 := (List.cons.inj hl).1
        have h2 := (List.cons.inj (List.cons.inj hl).2).2
        rw [← h1, ← h2]; rfl
      | x :: y :: rest, hl =>
        have h2 := (List.cons.inj (List.cons.inj hl).2).2
        cases rest <;> cases h2
    rw [hfile] at hhttp hterm
    exact ⟨hhttp, hterm⟩

/-! ## Terminal flows -/

/-- C4: the list `showTasksByStatus status` hands to `showTasks` is the loaded
collection filtered by `Status = status`, in the original order. -/
theorem showTasksByStatus_eq_filter (status : TaskStatus) (d : Disk) :
    (showTasksByStatus status d).1 =
        d.file.filter (fun task => decide (task.Status = status)) ∧
      List.Sublist (showTasksByStatus status d).1 d.file ∧
      (∀ task, task ∈ (showTasksByStatus status d).1 ↔ task ∈ d.file ∧ task.Status = status) ∧
      (showTasksByStatus status d).2.file = d.file := by
  have h : (showTasksByStatus status d).1 =
      d.file.filter (fun task => decide (task.Status = status)) := by
    simp [showTasksByStatus, loadTasks, showTasks, foldl_append_filter]
  refine ⟨h, ?_, ?_, rfl⟩
  · rw [h]; exact List.filter_sublist _
  · intro task; rw [h]; simp

/-- C8: the terminal update flow. When the entered id matches a task, the choices
"1", "2", "3" save the collection in which the first task of that id has status
Not Completed, In Progress, Completed respectively and nothing else differs; any
other choice writes nothing. When the id matches no task, nothing is written. -/
theorem updateTask_status (idStr : String) (d : Disk) :
    ((∃ t ∈ d.file, t.ID = (Atoi idStr).1) →
      ∃ pre t post, d.file = pre ++ t :: post ∧ t.ID = (Atoi idStr).1 ∧
        (∀ x ∈ pre, x.ID ≠ (Atoi idStr).1) ∧
        updateTask idStr "1" d =
          ("Task updated successfully.",
            { file := pre ++ { t with Status := "Not Completed" } :: post,
              reads := d.reads + 2, writes := d.writes + 1 }) ∧
        updateTask idStr "2" d =
          ("Task updated successfully.",
            { file := pre ++ { t with Status := "In Progress" } :: post,
              reads := d.reads + 2, writes := d.writes + 1 }) ∧
        updateTask idStr "3" d =
          ("Task updated successfully.",
            { file := pre ++ { t with Status := "Completed" } :: post,
              reads := d.reads + 2, writes := d.writes + 1 }) ∧
        (∀ statusChoice : String,
          statusChoice ≠ "1" → statusChoice ≠ "2" → statusChoice ≠ "3" →
            updateTask idStr statusChoice d =
              ("Invalid choice. Status not updated.",
                { file := d.file, reads := d.reads + 2, writes := d.writes }))) ∧
    ((∀ t ∈ d.file, t.ID ≠ (Atoi idStr).1) →
      ∀ statusChoice : String,
        updateTask idStr statusChoice d =
          ("Task not found.", { file := d.file, reads := d.reads + 2, writes := d.writes })) := by
  constructor
  · intro hex
    obtain ⟨pre, t, post, hl, ht, hpre, hfind⟩ := rangeFindID_found hex
    have h2 : ("2" : String) ≠ "1" := by decide
    have h3 : ("3" : String) ≠ "1" := by decide
    have h32 : ("3" : String) ≠ "2" := by decide
    refine ⟨pre, t, post, hl, ht, hpre, ?_, ?_, ?_, ?_⟩
    · unfold updateTask
      simp only [loadTasks, showAllTasks, hfind, saveTasks, if_true]
      rw [hl, setStatusAt_split]; rfl
    · unfold updateTask
      simp only [loadTasks, showAllTasks, hfind, saveTasks, if_true, if_neg h2]
      rw [hl, setStatusAt_split]; rfl
    · unfold updateTask
      simp only [loadTasks, showAllTasks, hfind, saveTasks, if_true, if_neg h3, if_neg h32]
      rw [hl, setStatusAt_split]; rfl
    · intro c c1 c2 c3
      unfold updateTask
      simp only [loadTasks, showAllTasks, hfind, if_neg c1, if_neg c2, if_neg c3]
  · intro hno c
    have hfind : rangeFindID (Atoi idStr).1 d.file 0 = none := rangeFindID_none.mpr hno
    unfold updateTask
    simp only [loadTasks, showAllTasks, hfind]


/-- C8 at `sampleDisk`: id "2" matches (the first of the two tasks of id 2 is the one
changed), id "9" matches nothing. At `bigIdDisk` the input `overflowInput` is read
as 2^63 - 1 and matches the second task. -/
theorem updateTask_status_witness :
    ((∃ t ∈ sampleDisk.file, t.ID = (Atoi "2").1) ∧
      ∃ pre t post, sampleDisk.file = pre ++ t :: post ∧ t.ID = (Atoi "2").1 ∧
        (∀ x ∈ pre, x.ID ≠ (Atoi "2").1) ∧
        updateTask "2" "1" sampleDisk =
          ("Task updated successfully.",
            { file := pre ++ { t with Status := "Not Completed" } :: post,
              reads := sampleDisk.reads + 2, writes := sampleDisk.writes + 1 }) ∧
        updateTask "2" "2" sampleDisk =
          ("Task updated successfully.",
            { file := pre ++ { t with Status := "In Progress" } :: post,
              reads := sampleDisk.reads + 2, writes := sampleDisk.writes + 1 }) ∧
        updateTask "2" "3" sampleDisk =
          ("Task updated successfully.",
            { file := pre ++ { t with Status := "Completed" } :: post,
              reads := sampleDisk.reads + 2, writes := sampleDisk.writes + 1 }) ∧
        (∀ statusChoice : String,
          statusChoice ≠ "1" → statusChoice ≠ "2" → statusChoice ≠ "3" →
            updateTask "2" statusChoice sampleDisk =
              ("Invalid choice. Status not updated.",
                { file := sampleDisk.file, reads := sampleDisk.reads + 2,
                  writes := sampleDisk.writes }))) ∧
    ((∀ t ∈ sampleDisk.file, t.ID ≠ (Atoi "9").1) ∧
      ∀ statusChoice : String,
        updateTask "9" statusChoice sampleDisk =
          ("Task not found.",
            { file := sampleDisk.file, reads := sampleDisk.reads + 2,
              writes := sampleDisk.writes })) ∧
    ((Atoi overflowInput).1 = 9223372036854775807 ∧
      updateTask overflowInput "3" bigIdDisk =
        ("Task updated successfully.",
          { file := [⟨1, "a", "Not Completed", ⟨7⟩⟩,
              ⟨9223372036854775807, "b", "Completed", ⟨8⟩⟩],
            reads := 2, writes := 1 })) := by
  refine ⟨⟨⟨⟨2, "b", NotCompleted, ⟨8⟩⟩, by decide, by decide⟩,
      (updateTask_status "2" sampleDisk).1 ⟨⟨2, "b", NotCompleted, ⟨8⟩⟩, by decide, by decide⟩⟩,
    ⟨by decide, (updateTask_status "9" sampleDisk).2 (by decide)⟩, by decide, ?_⟩
  obtain ⟨pre, t, post, hl, ht, -, -, -, h3, -⟩ :=
    (updateTask_status overflowInput bigIdDisk).1
      ⟨⟨9223372036854775807, "b", NotCompleted, ⟨8⟩⟩, by decide, by decide⟩
  have hfile : pre ++ { t with Status := "Completed" } :: post =
      [⟨1, "a", "Not Completed", ⟨7⟩⟩, ⟨9223372036854775807, "b", "Completed", ⟨8⟩⟩] := by
    match pre, hl with
    | [], hl =>
      have h1 := (List.cons.inj hl).1
      rw [← h1] at ht
      exact absurd ht (by decide)
    | [x], hl =>
      have h1 := (List.cons.inj hl).1
      have h2 := (List.cons.inj (List.cons.inj hl).2).1
      have h3 := (List.cons.inj (List.cons.inj hl).2).2
      rw [← h1, ← h2, ← h3]; rfl
    | x :: y :: rest, hl =>
      have h2 := (List.cons.inj (List.cons.inj hl).2).2
      cases rest <;> cases h2
  rw [hfile] at h3
  exact h3

/-! ## Adding tasks -/

/-- C1: starting from a store without tasks, after a sequence of adds that go through
(`POST /add` with a decodable body or the terminal add flow, in any mix) the
collection has as many tasks as there were adds, and the task appended by the add
number `k + 1` has id `k + 1`, sits at position `k + 1` of the final collection and,
for an HTTP add, is the body of the 201 response. -/
theorem adds_number_by_position (ops : List Op) (d : Disk) (hd : d.file = [])
    (hadd : ∀ op ∈ ops, op.isAdd = true) :
    (runOps ops d).file.length = ops.length ∧
      ∀ k, k < ops.length → ∃ t : TaskData,
        (runOps (ops.take (k + 1)) d).file = (runOps (ops.take k) d).file ++ [t] ∧
        t.ID = (k : Int) + 1 ∧
        (runOps ops d).file[k]? = some t ∧
        ∀ now r, ops[k]? = some (Op.httpAdd now r) →
          (handleAddTask now r (runOps (ops.take k) d)).1 =
            { Status := 201, Body := ResponseBody.task t } := by
  constructor
  · obtain ⟨l, hl, hlen⟩ := runOps_adds ops d hadd
    rw [hl, hd, List.nil_append, hlen]
  · intro k hk
    have hop : ops[k]? = some ops[k] := List.getElem?_eq_getElem hk
    have hmem : ops[k] ∈ ops := List.getElem_mem hk
    have htake : ops.take (k + 1) = ops.take k ++ [ops[k]] := by
      rw [List.take_succ, hop]; rfl
    obtain ⟨lk, hlk, hlenk⟩ := runOps_adds (ops.take k) d
      (fun o ho => hadd o (List.mem_of_mem_take ho))
    have hk0 : (runOps (ops.take k) d).file.length = k := by
      rw [hlk, hd, List.nil_append, hlenk, List.length_take]
      exact Nat.min_eq_left (Nat.le_of_lt hk)
    obtain ⟨t, htid, htfile, hresp⟩ := run_add ops[k] (runOps (ops.take k) d) (hadd _ hmem)
    have hstep : runOps (ops.take (k + 1)) d = ops[k].run (runOps (ops.take k) d) := by
      rw [htake, runOps_append, runOps_cons, runOps_nil]
    obtain ⟨lr, hlr, -⟩ := runOps_adds (ops.drop (k + 1)) (runOps (ops.take (k + 1)) d)
      (fun o ho => hadd o (List.mem_of_mem_drop ho))
    have hfinal : runOps ops d = runOps (ops.drop (k + 1)) (runOps (ops.take (k + 1)) d) := by
      rw [← runOps_append, List.take_append_drop]
    refine ⟨t, by rw [hstep, htfile], by rw [htid, hk0], ?_, ?_⟩
    · rw [hfinal, hlr, hstep, htfile]
      have hlt : k < ((runOps (ops.take k) d).file ++ [t]).length := by
        rw [List.length_append, hk0]; simp
      rw [List.getElem?_append_left hlt, List.getElem?_append_right (Nat.le_of_eq hk0), hk0]
      simp
    · intro now r hr
      rw [hop] at hr
      exact hresp now r (Option.some.inj hr)

/-- C1 at a terminal add, an HTTP add and a terminal add on the empty store. -/
theorem adds_number_by_position_witness :
    (runOps sampleAdds Disk.empty).file.length = 3 ∧
      ∀ k, k < 3 → ∃ t : TaskData,
        (runOps (sampleAdds.take (k + 1)) Disk.empty).file =
          (runOps (sampleAdds.take k) Disk.empty).file ++ [t] ∧
        t.ID = (k : Int) + 1 ∧
        (runOps sampleAdds Disk.empty).file[k]? = some t ∧
        ∀ now r, sampleAdds[k]? = some (Op.httpAdd now r) →
          (handleAddTask now r (runOps (sampleAdds.take k) Disk.empty)).1 =
            { Status := 201, Body := ResponseBody.task t } :=
  adds_number_by_position sampleAdds Disk.empty rfl (by decide)

/-! ## Uniqueness of ids -/

/-- C9: ids are not unique in general. After add, add, delete id 1, add the collection
holds two different tasks that both have id 2. After add requests only (whether or
not each goes through), tasks at different positions have different ids. -/
theorem ids_unique_only_without_delete :
    ((∀ op ∈ duplicateIdOps, op.isAdd = true ∨ op.isDeleteRequest = true) ∧
      (runOps duplicateIdOps Disk.empty).file = [⟨2, "b", "", ⟨2⟩⟩, ⟨2, "c", "", ⟨3⟩⟩] ∧
      ∃ (i j : Nat) (a b : TaskData), i ≠ j ∧
        (runOps duplicateIdOps Disk.empty).file[i]? = some a ∧
        (runOps duplicateIdOps Disk.empty).file[j]? = some b ∧ a ≠ b ∧ a.ID = b.ID) ∧
    (∀ (ops : List Op) (d : Disk), d.file = [] → (∀ op ∈ ops, op.isAddRequest = true) →
      ((runOps ops d).file.map (fun t => t.ID)).Nodup ∧
      ∀ (i j : Nat) (a b : TaskData), i ≠ j →
        (runOps ops d).file[i]? = some a → (runOps ops d).file[j]? = some b → a.ID ≠ b.ID) := by
  refine ⟨⟨by decide, by decide, 0, 1, ⟨2, "b", "", ⟨2⟩⟩, ⟨2, "c", "", ⟨3⟩⟩,
    by decide, by decide, by decide, by decide, rfl⟩, ?_⟩
  intro ops d hd hadd
  have hpos := runOps_addRequests_positions ops d hadd (by rw [hd]; simp)
  have hdist : ∀ (i j : Nat) (a b : TaskData), i ≠ j →
      (runOps ops d).file[i]? = some a → (runOps ops d).file[j]? = some b → a.ID ≠ b.ID := by
    intro i j a b hij ha hb hab
    rw [hpos i a ha, hpos j b hb] at hab
    omega
  refine ⟨?_, hdist⟩
  rw [List.nodup_iff_getElem?_ne_getElem?]
  intro i j hij hj heq
  rw [List.length_map] at hj
  have hi : i < (runOps ops d).file.length := Nat.lt_trans hij hj
  rw [List.getElem?_map, List.getElem?_map, List.getElem?_eq_getElem hi,
    List.getElem?_eq_getElem hj] at heq
  exact hdist i j _ _ (Nat.ne_of_lt hij) (List.getElem?_eq_getElem hi)
    (List.getElem?_eq_getElem hj) (Option.some.inj heq)

/-- C9, second half, at a mixed sequence of three adds. -/
theorem ids_unique_only_without_delete_witness :
    ((runOps sampleAdds Disk.empty).file.map (fun t => t.ID)).Nodup ∧
      ∀ (i j : Nat) (a b : TaskData), i ≠ j →
        (runOps sampleAdds Disk.empty).file[i]? = some a →
        (runOps sampleAdds Disk.empty).file[j]? = some b → a.ID ≠ b.ID :=
  ids_unique_only_without_delete.2 sampleAdds Disk.empty rfl (by decide)

/-! ## Ids in reachable stores -/

end TaskManager
